import Mathlib

/-!
Shallow embedding of the core of the file-integrity-monitor repository
(`src/hash_calculator.py`, `src/ignore_handler.py`, `src/scanner.py`,
`src/baseline.py`, `src/detector.py`).  Python dictionaries are modelled as
association lists, the file system as explicit functions passed to each
operation, and Python exceptions as an explicit error type returned through
`Except`.  POSIX path conventions are assumed (`os.sep` is `/`,
`os.path.normcase` is the identity), matching the environment the tool
documents.
-/

set_option autoImplicit false

namespace FIM

/-- Python exceptions raised by the embedded code, with their messages
(for `KeyError`, the missing key). -/
inductive PyError where
  | fileNotFound (msg : String)
  | valueError (msg : String)
  | keyError (key : String)
  | typeError (msg : String)
  | permissionError (msg : String)
  deriving DecidableEq, Repr

/-- Whether a raised error is a Python `ValueError` — the exception class the
code uses for the spec's InvalidFormat, InvalidArgument and Unsupported
failures. -/
def PyError.isValueError : PyError → Bool
  | .valueError _ => true
  | _ => false

/-- Values of the structured text format used for baselines: the shapes
`json.load` produces (dicts as association lists in key order). -/
inductive Json where
  | null
  | bool (b : Bool)
  | num (n : Int)
  | str (s : String)
  | arr (elems : List Json)
  | obj (fields : List (String × Json))
  deriving Repr

/-- Embedding of Python subscription `j[key]`: `KeyError` on a missing key of
a dict, `TypeError` when the value is not a dict. -/
def Json.getItem : Json → String → Except PyError Json
  | .obj fields, key =>
      match fields.lookup key with
      | some v => .ok v
      | none => .error (.keyError key)
  | _, _ => .error (.typeError "object is not subscriptable")

/-- Content of a file as seen by `json.load`: either text that fails to parse
(raising `json.JSONDecodeError`) or the parsed value. -/
inductive FileContent where
  | unparsable
  | parsed (j : Json)

/-- File-system fragment consulted by the baseline module: `none` when a path
is absent. -/
def JsonFS : Type := String → Option FileContent

/-- Embedding of `load_baseline` (src/baseline.py, lines 67-95).  A missing
file gives the `FileNotFoundError` of line 84; a parse failure gives the
`ValueError` of line 95; the logging call of line 90 subscripts the parsed
value at `metadata` and then `file_count` inside the `try` block, and a
failure of that subscription propagates uncaught, because the `except` clause
of line 93 catches only `json.JSONDecodeError`. -/
def load_baseline (fs : JsonFS) (baseline_file : String) : Except PyError Json :=
  match fs baseline_file with
  | none => .error (.fileNotFound ("Baseline file not found: " ++ baseline_file))
  | some .unparsable => .error (.valueError "Invalid baseline file format")
  | some (.parsed baseline) =>
      match baseline.getItem "metadata" with
      | .error e => .error e
      | .ok md =>
          match md.getItem "file_count" with
          | .error e => .error e
          | .ok _ => .ok baseline

/-- Per-file scan record: the dict built in src/scanner.py, lines 69-74. -/
structure FileRecord where
  hash : String
  size : Nat
  modified : String
  algorithm : String
  deriving DecidableEq, Repr

/-- JSON shape of one `FileRecord` as serialized inside a baseline. -/
def FileRecord.toJson (r : FileRecord) : Json :=
  .obj [("hash", .str r.hash), ("size", .num r.size),
        ("modified", .str r.modified), ("algorithm", .str r.algorithm)]

/-- Baseline dict built by `create_baseline` (src/baseline.py, lines 39-48).
`created` and the absolute `directory` are parameters standing for
`datetime.now().isoformat()` and `os.path.abspath(directory_path)`. -/
def buildBaseline (created directory algorithm : String)
    (ignorePatterns : List String) (scanResults : List (String × FileRecord)) : Json :=
  .obj [("metadata", .obj [("created", .str created), ("directory", .str directory),
          ("algorithm", .str algorithm), ("file_count", .num scanResults.length),
          ("ignore_patterns", .arr (ignorePatterns.map .str))]),
        ("files", .obj (scanResults.map fun pr => (pr.1, pr.2.toJson)))]

/-- Embedding of the save step of `create_baseline` (src/baseline.py, lines
51-64).  `json.dump` writes a textual serialization that `json.load` parses
back to an equal value for these shapes (string keys, string/int leaves), so
the stored content is modelled as the parsed value itself.  Returns the
updated file system and the baseline dict returned to the caller. -/
def create_baseline (fs : JsonFS) (created directory algorithm : String)
    (ignorePatterns : List String) (scanResults : List (String × FileRecord))
    (baseline_file : String) : JsonFS × Json :=
  let baseline := buildBaseline created directory algorithm ignorePatterns scanResults
  (fun p => if p = baseline_file then some (.parsed baseline) else fs p, baseline)

/-- Bytes read per iteration of the hashing loop (src/constants.py,
CHUNK_SIZE). -/
def CHUNK_SIZE : Nat := 65536

/-- Chunks of `n` elements, as the `f.read(CHUNK_SIZE)` loop of
src/hash_calculator.py produces them (for `n = 0` the loop body never runs,
`read(0)` being empty). -/
def chunksOf {α : Type} (n : Nat) (l : List α) : List (List α) :=
  match l, n with
  | [], _ => []
  | _ :: _, 0 => []
  | a :: t, m + 1 => (a :: t).take (m + 1) :: chunksOf (m + 1) ((a :: t).drop (m + 1))
  termination_by l.length
  decreasing_by
    simp [List.length_drop]
    omega

/-- File-system view consulted by `calculate_file_hash`: existence,
regular-file test, readability, and byte content. -/
structure HashFS where
  pathExists : String → Bool
  isfile : String → Bool
  readable : String → Bool
  content : String → List Nat

/-- Hexadecimal digit characters, lowercase, as `hexdigest` emits them. -/
def hexDigits : List Char := "0123456789abcdef".data

/-- Lowercase hex character of a digit value. -/
def hexChar (n : Nat) : Char := hexDigits.getD n '0'

/-- Lowercase hexadecimal string of a digest's raw bytes, two characters per
byte (hashlib's `hexdigest`). -/
def bytesToHex (bs : List Nat) : String :=
  ⟨bs.foldr (fun b acc => hexChar (b % 256 / 16) :: hexChar (b % 16) :: acc) []⟩

/-- Embedding of `calculate_file_hash` (src/hash_calculator.py, lines 11-53).
`recognized` stands for the set of algorithm names `hashlib.new` accepts and
`digest` for the raw digest bytes the chosen algorithm yields on the bytes
fed to the hash object; the read loop feeds the file content in `CHUNK_SIZE`
chunks.  The checks appear in source order: existence (line 28), regular file
(line 32), algorithm construction (line 37), then the guarded read (line 43),
whose `PermissionError` is re-raised as `PermissionError` (line 53). -/
def calculate_file_hash (fs : HashFS) (recognized : String → Bool)
    (digest : String → List Nat → List Nat) (file_path : String)
    (algorithm : String) : Except PyError String :=
  if ¬ fs.pathExists file_path then
    .error (.fileNotFound ("File not found: " ++ file_path))
  else if ¬ fs.isfile file_path then
    .error (.valueError ("Path is not a file: " ++ file_path))
  else if ¬ recognized algorithm then
    .error (.valueError ("Unsupported hash algorithm: " ++ algorithm))
  else if ¬ fs.readable file_path then
    .error (.permissionError ("Permission denied: " ++ file_path))
  else
    let fed := (chunksOf CHUNK_SIZE (fs.content file_path)).foldl (fun acc c => acc ++ c) []
    .ok (bytesToHex (digest algorithm fed))

/-- One item of a bracket character class: a literal character or an
inclusive code-point range. -/
inductive ClsItem where
  | lit (c : Char)
  | range (lo hi : Char)
  deriving DecidableEq, Repr

/-- One token of a compiled glob pattern, mirroring `fnmatch.translate`. -/
inductive Tok where
  | lit (c : Char)
  | star
  | qmark
  | cls (negated : Bool) (items : List ClsItem)
  deriving DecidableEq, Repr

/-- Split a character list at the first occurrence of `c`; `none` when `c`
is absent. -/
def splitAtChar (c : Char) : List Char → Option (List Char × List Char)
  | [] => none
  | a :: t =>
      if a = c then some ([], t)
      else match splitAtChar c t with
        | some (front, back) => some (a :: front, back)
        | none => none

theorem splitAtChar_length {c : Char} : ∀ {t front back : List Char},
    splitAtChar c t = some (front, back) → t.length = front.length + 1 + back.length := by
  intro t
  induction t with
  | nil => intro front back h; simp [splitAtChar] at h
  | cons a t ih =>
      intro front back h
      by_cases hac : a = c
      · simp [splitAtChar, hac] at h
        obtain ⟨h1, h2⟩ := h
        subst h1
        subst h2
        simp
        omega
      · simp only [splitAtChar, if_neg hac] at h
        cases hs : splitAtChar c t with
        | none => rw [hs] at h; simp at h
        | some p =>
            rw [hs] at h
            obtain ⟨front0, back0⟩ := p
            simp at h
            have := ih hs
            simp [← h.1, ← h.2, this]
            omega

/-- Scan of a bracket class, mirroring `fnmatch.translate`: after `[` an
optional `!`, then a first character that may be a literal `]`, then
characters up to the closing `]`.  Returns the negation flag, the class body
and the rest of the pattern, or `none` when no closing `]` exists (the `[`
is then treated as a literal character). -/
def parseCls (l : List Char) : Option (Bool × List Char × List Char) :=
  match l with
  | '!' :: ']' :: t =>
      match splitAtChar ']' t with
      | some (body, rest) => some (true, ']' :: body, rest)
      | none => none
  | '!' :: t =>
      match splitAtChar ']' t with
      | some (body, rest) => some (true, body, rest)
      | none => none
  | ']' :: t =>
      match splitAtChar ']' t with
      | some (body, rest) => some (false, ']' :: body, rest)
      | none => none
  | t =>
      match splitAtChar ']' t with
      | some (body, rest) => some (false, body, rest)
      | none => none

theorem parseCls_length {l : List Char} {neg : Bool} {body rest : List Char}
    (h : parseCls l = some (neg, body, rest)) : rest.length < l.length := by
  unfold parseCls at h
  split at h <;> split at h <;>
    first
      | (simp at h; done)
      | (rename_i body0 rest0 hs
         have hlen := splitAtChar_length hs
         simp at h
         obtain ⟨h1, h2, h3⟩ := h
         subst h3
         try simp only [List.length_cons]
         omega)

/-- Items of a class body: `x-y` forms an inclusive range, a hyphen at either
end is literal, every other character is literal. -/
def parseItems : List Char → List ClsItem
  | a :: '-' :: b :: rest => .range a b :: parseItems rest
  | a :: rest => .lit a :: parseItems rest
  | [] => []

/-- Membership test of one character against a bracket class. -/
def matchCls (negated : Bool) (items : List ClsItem) (c : Char) : Bool :=
  let hit := items.any fun it =>
    match it with
    | .lit a => a == c
    | .range lo hi => decide (lo ≤ c) && decide (c ≤ hi)
  if negated then ! hit else hit

/-- Compilation of a glob pattern into tokens, mirroring `fnmatch.translate`:
`*`, `?`, bracket classes, and literal characters. -/
def parsePattern (l : List Char) : List Tok :=
  match l with
  | [] => []
  | '*' :: rest => .star :: parsePattern rest
  | '?' :: rest => .qmark :: parsePattern rest
  | '[' :: rest =>
      match _hp : parseCls rest with
      | some (neg, body, after) => .cls neg (parseItems body) :: parsePattern after
      | none => .lit '[' :: parsePattern rest
  | c :: rest => .lit c :: parsePattern rest
  termination_by l.length
  decreasing_by
    · simp
    · simp
    · simp
      exact Nat.lt_succ_of_lt (parseCls_length _hp)
    · simp
    · simp

/-- Token-list matcher giving `fnmatch`'s semantics: `*` matches any possibly
empty sequence, `?` exactly one character, a class exactly one character
tested against its items. -/
def tokMatch (ts : List Tok) (s : List Char) : Bool :=
  match ts, s with
  | [], [] => true
  | [], _ :: _ => false
  | .star :: ts2, s =>
      tokMatch ts2 s ||
        (match s with
         | [] => false
         | _ :: s2 => tokMatch (.star :: ts2) s2)
  | .qmark :: ts2, _ :: s2 => tokMatch ts2 s2
  | .cls neg items :: ts2, c :: s2 => matchCls neg items c && tokMatch ts2 s2
  | .lit a :: ts2, c :: s2 => (a == c) && tokMatch ts2 s2
  | _ :: _, [] => false
  termination_by (ts.length, s.length)

/-- Embedding of `fnmatch.fnmatch(name, pattern)` on POSIX, where
`os.path.normcase` is the identity. -/
def fnmatch (name pattern : String) : Bool :=
  tokMatch (parsePattern pattern.data) name.data

/-- Built-in default ignore patterns (src/constants.py,
DEFAULT_IGNORE_PATTERNS). -/
def DEFAULT_IGNORE_PATTERNS : List String :=
  ["__pycache__", "*.pyc", "*.pyo", ".git", ".gitignore", ".DS_Store",
   "Thumbs.db", "*.log", ".vscode", ".idea", "node_modules", "venv", "env", ".env"]

/-- Default ignore-file name (src/constants.py, DEFAULT_IGNORE_FILE). -/
def DEFAULT_IGNORE_FILE : String := ".fimignore"

/-- Lines kept by `_load_ignore_file` (src/ignore_handler.py, lines 36-41):
each line stripped, with empty lines and `#` comments skipped, in file
order. -/
def parseIgnoreLines (lines : List String) : List String :=
  (lines.map String.trim).filter fun l => (l != "") && ! l.startsWith "#"

/-- File system seen by `IgnoreHandler`: `none` for an absent path,
`some none` for a path that exists but cannot be opened (so the `try` of
`_load_ignore_file` swallows the failure), `some (some lines)` for a
readable text file with the given lines. -/
def TextFS : Type := String → Option (Option (List String))

/-- Embedding of `IgnoreHandler._load_ignore_file`: appends the parsed lines,
or nothing when opening the file fails (the exception is caught and only
logged). -/
def loadIgnoreFile (fs : TextFS) (ignore_file : String) : List String :=
  match fs ignore_file with
  | some (some lines) => parseIgnoreLines lines
  | _ => []

/-- Embedding of `IgnoreHandler.__init__` (src/ignore_handler.py, lines
14-26): the pattern list starts from the defaults; if `ignore_file` is truthy
(a non-`None`, non-empty string) and names an existing path, that file's
patterns are appended; otherwise, if the default ignore file `.fimignore`
exists, that one is loaded instead. -/
def ignoreInit (fs : TextFS) (ignore_file : Option String) : List String :=
  let given := match ignore_file with
    | some f => (f != "") && (fs f).isSome
    | none => false
  if given then DEFAULT_IGNORE_PATTERNS ++ loadIgnoreFile fs (ignore_file.getD "")
  else if (fs DEFAULT_IGNORE_FILE).isSome then
    DEFAULT_IGNORE_PATTERNS ++ loadIgnoreFile fs DEFAULT_IGNORE_FILE
  else DEFAULT_IGNORE_PATTERNS

/-- Split a character list on `/`, with Python's `str.split` semantics for a
one-character separator: the empty string yields one empty field, and
leading/trailing/adjacent separators yield empty fields. -/
def splitOnSlash : List Char → List (List Char)
  | [] => [[]]
  | c :: t =>
      if c = '/' then [] :: splitOnSlash t
      else
        match splitOnSlash t with
        | h :: r => (c :: h) :: r
        | [] => [[c]]

/-- Embedding of `path.split(os.sep)` on POSIX. -/
def pathParts (path : String) : List String :=
  (splitOnSlash path.data).map fun cs => ⟨cs⟩

/-- Embedding of `os.path.basename` on POSIX: the part after the last
slash. -/
def basename (path : String) : String :=
  (pathParts path).getLastD ""

/-- Loop of `should_ignore` over the pattern list, with the early returns of
src/ignore_handler.py, lines 59-72: a basename glob match, a full-path match
against the pattern wrapped in `*` on both sides, then a glob match of any
single path component. -/
def shouldIgnoreAux (path base : String) (parts : List String) : List String → Bool
  | [] => false
  | pattern :: rest =>
      if fnmatch base pattern then true
      else if fnmatch path ("*" ++ pattern ++ "*") then true
      else if parts.any fun part => fnmatch part pattern then true
      else shouldIgnoreAux path base parts rest

/-- Embedding of `IgnoreHandler.should_ignore` (src/ignore_handler.py, lines
46-74) for a handler holding the pattern list `patterns`. -/
def shouldIgnore (patterns : List String) (path : String) : Bool :=
  shouldIgnoreAux path (basename path) (pathParts path) patterns

/-- Embedding of `os.path.join(base, name)` on POSIX for the shapes the
scanner produces: an absolute `name` replaces `base`; otherwise a slash is
inserted unless `base` is empty or already ends with one. -/
def pjoin (base name : String) : String :=
  if ['/'].isPrefixOf name.data then name
  else if base = "" then name
  else if ['/'].isSuffixOf base.data then base ++ name
  else base ++ "/" ++ name

/-- One regular file of the modelled directory tree: its name, whether
hashing and stating it succeeds, and the hash/size/mtime recorded on
success. -/
structure FileEntry where
  name : String
  readable : Bool
  hash : String
  size : Nat
  modified : String
  deriving DecidableEq, Repr

/-- Directory tree as `os.walk` exposes it: named subdirectories and regular
files. -/
inductive FSTree where
  | node (dirs : List (String × FSTree)) (files : List FileEntry)

/-- Per-file loop of `scan_directory` (src/scanner.py, lines 52-87) over the
files of one directory `root`: an ignored file counts as skipped (line 58);
hashing or stating an unreadable file raises `PermissionError`/`OSError`,
which is caught, counted as skipped, and the loop continues (lines 82-87);
otherwise the record dict of lines 69-74 is added.  Returns the records in
loop order and the number of skipped files. -/
def walkFiles (patterns : List String) (algorithm root : String) :
    List FileEntry → List (String × FileRecord) × Nat
  | [] => ([], 0)
  | f :: rest =>
      let fp := pjoin root f.name
      let r := walkFiles patterns algorithm root rest
      if shouldIgnore patterns fp then (r.1, r.2 + 1)
      else if f.readable then ((fp, ⟨f.hash, f.size, f.modified, algorithm⟩) :: r.1, r.2)
      else (r.1, r.2 + 1)

mutual
/-- Embedding of the `os.walk` loop of `scan_directory` (src/scanner.py,
lines 48-87) from a directory `root` holding the tree `t`: the files of
`root` are processed first, then each subdirectory in order, where a
subdirectory matching `should_ignore` is pruned in place (line 50) and not
descended into.  Returns the accumulated result dict and skipped count. -/
def walkScan (patterns : List String) (algorithm root : String) :
    FSTree → List (String × FileRecord) × Nat
  | .node dirs files =>
      let own := walkFiles patterns algorithm root files
      let sub := walkDirs patterns algorithm root dirs
      (own.1 ++ sub.1, own.2 + sub.2)

/-- Walk of the subdirectory list of one directory, pruning ignored names
(line 50 of src/scanner.py) and descending into the rest in order. -/
def walkDirs (patterns : List String) (algorithm root : String) :
    List (String × FSTree) → List (String × FileRecord) × Nat
  | [] => ([], 0)
  | (d, sub) :: rest =>
      if shouldIgnore patterns (pjoin root d) then
        walkDirs patterns algorithm root rest
      else
        let here := walkScan patterns algorithm (pjoin root d) sub
        let there := walkDirs patterns algorithm root rest
        (here.1 ++ there.1, here.2 + there.2)
end

/-- Entry of the `modified` bucket (src/detector.py, lines 60-68). -/
structure ModifiedEntry where
  path : String
  old_hash : String
  new_hash : String
  old_size : Nat
  new_size : Nat
  old_modified : String
  new_modified : String
  deriving DecidableEq, Repr

/-- Entry of the `added` bucket (src/detector.py, lines 75-80). -/
structure AddedEntry where
  path : String
  hash : String
  size : Nat
  modified : String
  deriving DecidableEq, Repr

/-- Entry of the `deleted` bucket (src/detector.py, lines 86-90). -/
structure DeletedEntry where
  path : String
  hash : String
  size : Nat
  deriving DecidableEq, Repr

/-- The four buckets of `compare_with_baseline` (src/detector.py, lines
46-51). -/
structure ChangeSet where
  modified : List ModifiedEntry
  added : List AddedEntry
  deleted : List DeletedEntry
  unchanged : List String
  deriving DecidableEq, Repr

/-- Loop body of the current-side pass of `compare_with_baseline`
(src/detector.py, lines 54-81); Python's `in` test on the baseline dict is
`lookup`. -/
def classifyCurrent (baseline_files : List (String × FileRecord))
    (changes : ChangeSet) (entry : String × FileRecord) : ChangeSet :=
  match baseline_files.lookup entry.1 with
  | some b =>
      if entry.2.hash ≠ b.hash then
        { changes with modified := changes.modified ++
            [⟨entry.1, b.hash, entry.2.hash, b.size, entry.2.size, b.modified, entry.2.modified⟩] }
      else
        { changes with unchanged := changes.unchanged ++ [entry.1] }
  | none =>
      { changes with added := changes.added ++
          [⟨entry.1, entry.2.hash, entry.2.size, entry.2.modified⟩] }

/-- Loop body of the deletion pass of `compare_with_baseline`
(src/detector.py, lines 84-91). -/
def classifyDeleted (current_files : List (String × FileRecord))
    (changes : ChangeSet) (entry : String × FileRecord) : ChangeSet :=
  if (current_files.lookup entry.1).isNone then
    { changes with deleted := changes.deleted ++ [⟨entry.1, entry.2.hash, entry.2.size⟩] }
  else changes

/-- Embedding of the classification core of `compare_with_baseline`
(src/detector.py, lines 46-96), for a baseline `files` dict and a current
scan dict given as association lists in iteration order.  The four buckets
start empty (lines 46-51); the first pass iterates over the current scan
(lines 54-81), the second over the baseline (lines 84-91). -/
def compare_with_baseline (baseline_files current_files : List (String × FileRecord)) :
    ChangeSet :=
  let start : ChangeSet := ⟨[], [], [], []⟩
  let afterCurrent := current_files.foldl (classifyCurrent baseline_files) start
  baseline_files.foldl (classifyDeleted current_files) afterCurrent

/-- Paths of the `modified` bucket. -/
def ChangeSet.modifiedPaths (cs : ChangeSet) : List String :=
  cs.modified.map ModifiedEntry.path

/-- Paths of the `added` bucket. -/
def ChangeSet.addedPaths (cs : ChangeSet) : List String :=
  cs.added.map AddedEntry.path

/-- Paths of the `deleted` bucket. -/
def ChangeSet.deletedPaths (cs : ChangeSet) : List String :=
  cs.deleted.map DeletedEntry.path

/-- Every classified path of a `ChangeSet`, across the four buckets. -/
def ChangeSet.allPaths (cs : ChangeSet) : List String :=
  cs.modifiedPaths ++ cs.addedPaths ++ cs.deletedPaths ++ cs.unchanged

/-- Keys of a dict given as an association list. -/
def keys (l : List (String × FileRecord)) : List String := l.map Prod.fst

/-- Whether a result is the spec's InvalidFormat failure, that is, a raised
`ValueError`. -/
def raisesInvalidFormat (r : Except PyError Json) : Bool :=
  match r with
  | .error e => e.isValueError
  | .ok _ => false

/-- Lowercase-hex predicate: every character of `s` is one of the sixteen
lowercase hexadecimal digits. -/
def isLowerHex (s : String) : Prop := ∀ c ∈ s.data, c ∈ hexDigits

/-- Entry appended to `modified` by one current-side loop step, when any
(src/detector.py, lines 54-68). -/
def modEntry (baseline_files : List (String × FileRecord))
    (e : String × FileRecord) : Option ModifiedEntry :=
  match baseline_files.lookup e.1 with
  | some b =>
      if e.2.hash ≠ b.hash then
        some ⟨e.1, b.hash, e.2.hash, b.size, e.2.size, b.modified, e.2.modified⟩
      else none
  | none => none

/-- Path appended to `unchanged` by one current-side loop step, when any
(src/detector.py, lines 70-72). -/
def unchEntry (baseline_files : List (String × FileRecord))
    (e : String × FileRecord) : Option String :=
  match baseline_files.lookup e.1 with
  | some b => if e.2.hash ≠ b.hash then none else some e.1
  | none => none

/-- Entry appended to `added` by one current-side loop step, when any
(src/detector.py, lines 73-80). -/
def addEntry (baseline_files : List (String × FileRecord))
    (e : String × FileRecord) : Option AddedEntry :=
  match baseline_files.lookup e.1 with
  | some _ => none
  | none => some ⟨e.1, e.2.hash, e.2.size, e.2.modified⟩

/-- Entry appended to `deleted` by one baseline-side loop step, when any
(src/detector.py, lines 84-91). -/
def delEntry (current_files : List (String × FileRecord))
    (e : String × FileRecord) : Option DeletedEntry :=
  if (current_files.lookup e.1).isNone then some ⟨e.1, e.2.hash, e.2.size⟩ else none

/-- Condition under which a current-side entry lands in `modified`. -/
def modCond (baseline_files : List (String × FileRecord))
    (e : String × FileRecord) : Bool :=
  match baseline_files.lookup e.1 with
  | some b => e.2.hash != b.hash
  | none => false

/-- Condition under which a current-side entry lands in `unchanged`. -/
def unchCond (baseline_files : List (String × FileRecord))
    (e : String × FileRecord) : Bool :=
  match baseline_files.lookup e.1 with
  | some b => e.2.hash == b.hash
  | none => false

/-- Condition under which a current-side entry lands in `added`. -/
def addCond (baseline_files : List (String × FileRecord))
    (e : String × FileRecord) : Bool :=
  (baseline_files.lookup e.1).isNone

/-- Condition under which a baseline-side entry lands in `deleted`. -/
def delCond (current_files : List (String × FileRecord))
    (e : String × FileRecord) : Bool :=
  (current_files.lookup e.1).isNone

theorem getD_mem_or_default {α : Type} : ∀ (l : List α) (n : Nat) (d : α),
    l.getD n d ∈ l ∨ l.getD n d = d := by
  intro l
  induction l with
  | nil => intro n d; right; simp
  | cons a t ih =>
      intro n d
      cases n with
      | zero => left; simp
      | succ n =>
          rcases ih n d with h | h
          · left
            rw [List.getD_cons_succ]
            exact List.mem_cons_of_mem a h
          · right
            rw [List.getD_cons_succ]
            exact h

theorem hexChar_mem (n : Nat) : hexChar n ∈ hexDigits := by
  unfold hexChar
  rcases getD_mem_or_default hexDigits n '0' with h | h
  · exact h
  · rw [h]; decide

theorem hexFold_mem : ∀ (bs : List Nat) (c : Char),
    c ∈ bs.foldr (fun b acc => hexChar (b % 256 / 16) :: hexChar (b % 16) :: acc) [] →
    c ∈ hexDigits := by
  intro bs
  induction bs with
  | nil => intro c hc; simp at hc
  | cons b rest ih =>
      intro c hc
      simp only [List.foldr_cons, List.mem_cons] at hc
      rcases hc with h | h | h
      · exact h ▸ hexChar_mem _
      · exact h ▸ hexChar_mem _
      · exact ih c h

theorem bytesToHex_isLowerHex (bs : List Nat) : isLowerHex (bytesToHex bs) :=
  fun c hc => hexFold_mem bs c hc

/-- C4: `calculate_file_hash` fails with `FileNotFoundError` when the path
does not exist, with the not-a-file `ValueError` when the path exists but is
not a regular file, with the unsupported-algorithm `ValueError` when
`hashlib.new` rejects the algorithm name, and with `PermissionError` when
the file cannot be opened or read; on any other input it returns a lowercase
hexadecimal digest string. -/
theorem calculate_file_hash_spec (fs : HashFS) (recognized : String → Bool)
    (digest : String → List Nat → List Nat) (p a : String) :
    (fs.pathExists p = false →
      calculate_file_hash fs recognized digest p a =
        .error (.fileNotFound ("File not found: " ++ p))) ∧
    (fs.pathExists p = true → fs.isfile p = false →
      calculate_file_hash fs recognized digest p a =
        .error (.valueError ("Path is not a file: " ++ p))) ∧
    (fs.pathExists p = true → fs.isfile p = true → recognized a = false →
      calculate_file_hash fs recognized digest p a =
        .error (.valueError ("Unsupported hash algorithm: " ++ a))) ∧
    (fs.pathExists p = true → fs.isfile p = true → recognized a = true →
      fs.readable p = false →
      calculate_file_hash fs recognized digest p a =
        .error (.permissionError ("Permission denied: " ++ p))) ∧
    (fs.pathExists p = true → fs.isfile p = true → recognized a = true →
      fs.readable p = true →
      ∃ s, calculate_file_hash fs recognized digest p a = .ok s ∧ isLowerHex s) := by
  refine ⟨?_, ?_, ?_, ?_, ?_⟩
  · intro h1; simp [calculate_file_hash, h1]
  · intro h1 h2; simp [calculate_file_hash, h1, h2]
  · intro h1 h2 h3; simp [calculate_file_hash, h1, h2, h3]
  · intro h1 h2 h3 h4; simp [calculate_file_hash, h1, h2, h3, h4]
  · intro h1 h2 h3 h4
    simp [calculate_file_hash, h1, h2, h3, h4]
    first
      | exact ⟨_, rfl, bytesToHex_isLowerHex _⟩
      | exact bytesToHex_isLowerHex _

/-- C4, witness: a concrete readable regular file hashed under a recognized
algorithm, exercising the success branch of the theorem. -/
theorem calculate_file_hash_spec_witness :
    ∃ s, calculate_file_hash
        ⟨fun _ => true, fun _ => true, fun _ => true, fun _ => [104, 105]⟩
        (fun a => a == "sha256") (fun _ bs => bs) "f.txt" "sha256" = .ok s ∧
      isLowerHex s :=
  (calculate_file_hash_spec
      ⟨fun _ => true, fun _ => true, fun _ => true, fun _ => [104, 105]⟩
      (fun a => a == "sha256") (fun _ bs => bs) "f.txt" "sha256").2.2.2.2
    rfl rfl (by decide) rfl

/-- C9: in `calculate_file_hash` the path checks precede the algorithm
check: a missing path yields `FileNotFoundError` even when the algorithm
name is also unrecognized, and an existing path that is not a regular file
yields the not-a-file `ValueError` before the algorithm name is validated. -/
theorem calculate_file_hash_check_order (fs : HashFS) (recognized : String → Bool)
    (digest : String → List Nat → List Nat) (p a : String)
    (_halg : recognized a = false) :
    (fs.pathExists p = false →
      calculate_file_hash fs recognized digest p a =
        .error (.fileNotFound ("File not found: " ++ p))) ∧
    (fs.pathExists p = true → fs.isfile p = false →
      calculate_file_hash fs recognized digest p a =
        .error (.valueError ("Path is not a file: " ++ p))) := by
  constructor
  · intro h1; simp [calculate_file_hash, h1]
  · intro h1 h2; simp [calculate_file_hash, h1, h2]

/-- C9, witness: a missing path with an unrecognized algorithm still reports
the missing file, not the bad algorithm. -/
theorem calculate_file_hash_check_order_witness :
    calculate_file_hash
        ⟨fun _ => false, fun _ => false, fun _ => false, fun _ => []⟩
        (fun _ => false) (fun _ bs => bs) "gone.txt" "nosuchalgo" =
      .error (.fileNotFound ("File not found: " ++ "gone.txt")) :=
  (calculate_file_hash_check_order
      ⟨fun _ => false, fun _ => false, fun _ => false, fun _ => []⟩
      (fun _ => false) (fun _ bs => bs) "gone.txt" "nosuchalgo" rfl).1 rfl

/-- C3 (amended): `load_baseline` fails with `FileNotFoundError` when the
baseline file is absent and with the InvalidFormat `ValueError` of line 95
when the content cannot be parsed; when the content parses but the required
`metadata`/`file_count` fields are missing, the failure surfaced is the
uncaught subscription error of the logging call on line 90 (a `KeyError` or
`TypeError`), not the InvalidFormat `ValueError`; in every failure case a
typed error reaches the caller, and a success returns exactly the parsed
content, never a silent default. -/
theorem load_baseline_failure_modes (fs : JsonFS) (f : String) :
    (fs f = none →
      load_baseline fs f = .error (.fileNotFound ("Baseline file not found: " ++ f))) ∧
    (fs f = some .unparsable →
      load_baseline fs f = .error (.valueError "Invalid baseline file format")) ∧
    (∀ j e, fs f = some (.parsed j) → j.getItem "metadata" = .error e →
      load_baseline fs f = .error e) ∧
    (∀ j md e, fs f = some (.parsed j) → j.getItem "metadata" = .ok md →
      md.getItem "file_count" = .error e → load_baseline fs f = .error e) ∧
    (∀ b, load_baseline fs f = .ok b → fs f = some (.parsed b)) := by
  refine ⟨?_, ?_, ?_, ?_, ?_⟩
  · intro h; simp [load_baseline, h]
  · intro h; simp [load_baseline, h]
  · intro j e hj hm; simp [load_baseline, hj, hm]
  · intro j md e hj hm hc; simp [load_baseline, hj, hm, hc]
  · intro b hb
    unfold load_baseline at hb
    split at hb
    · simp at hb
    · simp at hb
    · rename_i j hfs
      split at hb
      · simp at hb
      · rename_i md hm
        split at hb
        · simp at hb
        · rename_i v hc
          simp at hb
          simp [hfs, hb]

/-- C3, witness: a missing baseline file surfaces the `FileNotFoundError`. -/
theorem load_baseline_failure_modes_witness :
    load_baseline (fun _ => none) "baseline.json" =
      .error (.fileNotFound ("Baseline file not found: " ++ "baseline.json")) :=
  (load_baseline_failure_modes (fun _ => none) "baseline.json").1 rfl

/-- C3, counterexample to the claim as stated: content that parses as the
empty JSON object is a recognizable but incomplete shape missing the
required metadata fields, yet `load_baseline` surfaces the uncaught
`KeyError` of the logging subscription on line 90, not an InvalidFormat
`ValueError`. -/
theorem load_baseline_incomplete_keyError :
    load_baseline (fun _ => some (.parsed (.obj []))) "baseline.json" =
        .error (.keyError "metadata") ∧
      raisesInvalidFormat
        (load_baseline (fun _ => some (.parsed (.obj []))) "baseline.json") = false :=
  ⟨rfl, rfl⟩

/-- C10: constructed with an `ignore_file` argument naming a non-empty path
that does not exist, `IgnoreHandler` does not fail and does not merely skip
user patterns: it silently falls back to loading the default ignore file
`.fimignore` when that file exists, so the resulting pattern list appends
`.fimignore`'s patterns after the defaults even though the caller never
referenced that file. -/
theorem ignoreInit_fallback (fs : TextFS) (f : String) (lines : List String)
    (_hf : f ≠ "") (habsent : fs f = none)
    (hdefault : fs DEFAULT_IGNORE_FILE = some (some lines)) :
    ignoreInit fs (some f) = DEFAULT_IGNORE_PATTERNS ++ parseIgnoreLines lines := by
  simp [ignoreInit, habsent, hdefault, loadIgnoreFile]

/-- C10, witness: a caller passing a missing ignore-file path while a
`.fimignore` with one pattern line exists in the working directory. -/
theorem ignoreInit_fallback_witness :
    ignoreInit
        (fun p => if p = ".fimignore" then some (some ["  mypattern  "]) else none)
        (some "missing.ignore") =
      DEFAULT_IGNORE_PATTERNS ++ parseIgnoreLines ["  mypattern  "] :=
  ignoreInit_fallback
    (fun p => if p = ".fimignore" then some (some ["  mypattern  "]) else none)
    "missing.ignore" ["  mypattern  "] (by decide) (by decide) (by decide)

theorem load_baseline_parsed_ok {fs : JsonFS} {f : String} {j md v : Json}
    (hfs : fs f = some (.parsed j)) (hm : j.getItem "metadata" = .ok md)
    (hc : md.getItem "file_count" = .ok v) : load_baseline fs f = .ok j := by
  simp [load_baseline, hfs, hm, hc]

/-- C8: a baseline written by `create_baseline` and loaded back with
`load_baseline` is returned exactly as written — all metadata fields and
every file record preserved — and its metadata `file_count` equals the
number of entries of its `files` mapping. -/
theorem create_baseline_roundTrip (fs : JsonFS) (created directory algorithm : String)
    (pats : List String) (res : List (String × FileRecord)) (bfile : String) :
    load_baseline (create_baseline fs created directory algorithm pats res bfile).1 bfile =
        .ok (create_baseline fs created directory algorithm pats res bfile).2 ∧
    (∃ md, (create_baseline fs created directory algorithm pats res bfile).2.getItem
        "metadata" = .ok md ∧ md.getItem "file_count" = .ok (.num res.length)) ∧
    (∃ fl, (create_baseline fs created directory algorithm pats res bfile).2.getItem
        "files" = .ok (.obj fl) ∧ fl.length = res.length) := by
  refine ⟨load_baseline_parsed_ok (by simp [create_baseline]) rfl rfl,
    ⟨_, rfl, rfl⟩, ⟨_, rfl, ?_⟩⟩
  simp [create_baseline, buildBaseline]

theorem shouldIgnoreAux_iff (path base : String) (parts : List String) :
    ∀ patterns : List String, shouldIgnoreAux path base parts patterns = true ↔
      ∃ pattern ∈ patterns, fnmatch base pattern = true ∨
        fnmatch path ("*" ++ pattern ++ "*") = true ∨
        ∃ part ∈ parts, fnmatch part pattern = true := by
  intro patterns
  induction patterns with
  | nil => simp [shouldIgnoreAux]
  | cons pat rest ih =>
      simp only [shouldIgnoreAux]
      by_cases h1 : fnmatch base pat = true
      · simp [h1]
      · by_cases h2 : fnmatch path ("*" ++ pat ++ "*") = true
        · simp [h2]
        · by_cases h3 : (parts.any fun part => fnmatch part pat) = true
          · rw [List.any_eq_true] at h3
            simp [h1, h2, h3]
          · rw [List.any_eq_true] at h3
            simp [h1, h2, h3, ih]

/-- C5: `should_ignore` returns `true` exactly when some pattern in the
handler's set matches the path's final component as a glob, or matches the
full path string once the pattern is wrapped with a wildcard on each side
(substring-style containment), or matches as a glob some single component
obtained by splitting the path on the separator. -/
theorem shouldIgnore_iff (patterns : List String) (path : String) :
    shouldIgnore patterns path = true ↔
      ∃ pattern ∈ patterns,
        fnmatch (basename path) pattern = true ∨
        fnmatch path ("*" ++ pattern ++ "*") = true ∨
        ∃ part ∈ pathParts path, fnmatch part pattern = true :=
  shouldIgnoreAux_iff path (basename path) (pathParts path) patterns

theorem walkDirs_skip (patterns : List String) (algorithm root : String)
    (d : String) (sub : FSTree)
    (hignored : shouldIgnore patterns (pjoin root d) = true) :
    ∀ dpre dpost : List (String × FSTree),
      walkDirs patterns algorithm root (dpre ++ (d, sub) :: dpost) =
        walkDirs patterns algorithm root (dpre ++ dpost) := by
  intro dpre
  induction dpre with
  | nil =>
      intro dpost
      simp [walkDirs, hignored]
  | cons e rest ih =>
      intro dpost
      obtain ⟨e1, e2⟩ := e
      simp only [List.cons_append, walkDirs, List.append_eq]
      rw [ih]

/-- C6: during `scan_directory`'s traversal, a directory whose joined path
satisfies `should_ignore` is not descended into: scanning a directory that
contains it gives exactly the result and skipped count obtained with that
whole subtree removed, so no file under it — at any depth, ignored or not —
appears in the returned mapping; the outcome is also independent of the
ignored subtree's entire content. -/
theorem walkScan_prunes (patterns : List String) (algorithm root : String)
    (dpre dpost : List (String × FSTree)) (files : List FileEntry)
    (d : String) (sub : FSTree)
    (hignored : shouldIgnore patterns (pjoin root d) = true) :
    walkScan patterns algorithm root (.node (dpre ++ (d, sub) :: dpost) files) =
        walkScan patterns algorithm root (.node (dpre ++ dpost) files) ∧
    ∀ sub2 : FSTree,
      walkScan patterns algorithm root (.node (dpre ++ (d, sub) :: dpost) files) =
        walkScan patterns algorithm root (.node (dpre ++ (d, sub2) :: dpost) files) := by
  constructor
  · simp only [walkScan]
    rw [walkDirs_skip patterns algorithm root d sub hignored]
  · intro sub2
    simp only [walkScan]
    rw [walkDirs_skip patterns algorithm root d sub hignored,
        walkDirs_skip patterns algorithm root d sub2 hignored]

/-- C6, witness: a `node_modules` directory with a deeply nested readable
file contributes nothing to the scan of its parent. -/
theorem walkScan_prunes_witness :
    walkScan ["node_modules"] "sha256" "/r"
        (.node [("node_modules", .node [] [⟨"deep.js", true, "h", 1, "t"⟩])] []) =
      walkScan ["node_modules"] "sha256" "/r" (.node [] []) :=
  (walkScan_prunes ["node_modules"] "sha256" "/r" [] [] []
    "node_modules" (.node [] [⟨"deep.js", true, "h", 1, "t"⟩])
    (by
      have hpj : pjoin "/r" "node_modules" = "/r/node_modules" := by decide
      rw [hpj]
      simp [shouldIgnore, shouldIgnoreAux, basename, pathParts, splitOnSlash,
        fnmatch, parsePattern, tokMatch, matchCls, parseCls, splitAtChar,
        parseItems])).1

theorem walkFiles_skip_unreadable (patterns : List String) (algorithm root : String)
    (f : FileEntry) (hread : f.readable = false)
    (hnotign : shouldIgnore patterns (pjoin root f.name) = false) :
    ∀ fpre fpost : List FileEntry,
      walkFiles patterns algorithm root (fpre ++ f :: fpost) =
        ((walkFiles patterns algorithm root (fpre ++ fpost)).1,
         (walkFiles patterns algorithm root (fpre ++ fpost)).2 + 1) := by
  intro fpre
  induction fpre with
  | nil =>
      intro fpost
      simp [walkFiles, hread, hnotign]
  | cons e rest ih =>
      intro fpost
      simp only [List.cons_append, walkFiles, List.append_eq]
      rw [ih]
      by_cases h1 : shouldIgnore patterns (pjoin root e.name) = true
      · simp [h1]
      · by_cases h2 : e.readable = true
        · simp [h1, h2]
        · simp [h1, h2]

/-- C7: a file whose hashing or stating fails with a permission or OS-level
I/O error is omitted from the returned mapping and counted once as skipped,
while the scan completes normally: the result dict is exactly the one
produced by the same scan with that file absent, so every other successfully
processed file keeps its record. -/
theorem walkScan_isolates_file_failure (patterns : List String) (algorithm root : String)
    (dirs : List (String × FSTree)) (fpre fpost : List FileEntry) (f : FileEntry)
    (hread : f.readable = false)
    (hnotign : shouldIgnore patterns (pjoin root f.name) = false) :
    walkScan patterns algorithm root (.node dirs (fpre ++ f :: fpost)) =
      ((walkScan patterns algorithm root (.node dirs (fpre ++ fpost))).1,
       (walkScan patterns algorithm root (.node dirs (fpre ++ fpost))).2 + 1) := by
  simp only [walkScan]
  rw [walkFiles_skip_unreadable patterns algorithm root f hread hnotign fpre fpost]
  rw [Prod.ext_iff]
  constructor
  · rfl
  · simp
    omega

/-- C7, witness: an unreadable file among readable ones is dropped and
counted as skipped while its sibling keeps its record. -/
theorem walkScan_isolates_file_failure_witness :
    walkScan [] "sha256" "/r"
        (.node [] [⟨"ok.txt", true, "h1", 2, "t"⟩, ⟨"bad.txt", false, "h2", 3, "t"⟩]) =
      ((walkScan [] "sha256" "/r" (.node [] [⟨"ok.txt", true, "h1", 2, "t"⟩])).1,
       (walkScan [] "sha256" "/r" (.node [] [⟨"ok.txt", true, "h1", 2, "t"⟩])).2 + 1) :=
  walkScan_isolates_file_failure [] "sha256" "/r" []
    [⟨"ok.txt", true, "h1", 2, "t"⟩] [] ⟨"bad.txt", false, "h2", 3, "t"⟩
    rfl (by simp [shouldIgnore, shouldIgnoreAux])

theorem foldl_classifyCurrent (b : List (String × FileRecord)) :
    ∀ (l : List (String × FileRecord)) (cs : ChangeSet),
      l.foldl (classifyCurrent b) cs =
        ⟨cs.modified ++ l.filterMap (modEntry b), cs.added ++ l.filterMap (addEntry b),
         cs.deleted, cs.unchanged ++ l.filterMap (unchEntry b)⟩ := by
  intro l
  induction l with
  | nil => intro cs; cases cs; simp
  | cons e t ih =>
      intro cs
      rw [List.foldl_cons, ih]
      cases hb : b.lookup e.1 with
      | some bb =>
          by_cases hh : e.2.hash = bb.hash
          · simp [classifyCurrent, modEntry, addEntry, unchEntry, hb, hh]
          · simp [classifyCurrent, modEntry, addEntry, unchEntry, hb, hh]
      | none => simp [classifyCurrent, modEntry, addEntry, unchEntry, hb]

theorem foldl_classifyDeleted (c : List (String × FileRecord)) :
    ∀ (l : List (String × FileRecord)) (cs : ChangeSet),
      l.foldl (classifyDeleted c) cs =
        { cs with deleted := cs.deleted ++ l.filterMap (delEntry c) } := by
  intro l
  induction l with
  | nil => intro cs; simp
  | cons e t ih =>
      intro cs
      rw [List.foldl_cons, ih]
      by_cases hn : (c.lookup e.1).isNone = true
      · simp [classifyDeleted, delEntry, hn]
      · simp [classifyDeleted, delEntry, hn]

theorem compare_with_baseline_eq (b c : List (String × FileRecord)) :
    compare_with_baseline b c =
      ⟨c.filterMap (modEntry b), c.filterMap (addEntry b),
       b.filterMap (delEntry c), c.filterMap (unchEntry b)⟩ := by
  show List.foldl (classifyDeleted c) (List.foldl (classifyCurrent b) ⟨[], [], [], []⟩ c) b = _
  rw [foldl_classifyDeleted, foldl_classifyCurrent]
  simp

theorem lookup_isSome_iff (l : List (String × FileRecord)) (p : String) :
    (l.lookup p).isSome = true ↔ p ∈ l.map Prod.fst := by
  induction l with
  | nil => simp [List.lookup]
  | cons e t ih =>
      obtain ⟨q, v⟩ := e
      by_cases hpq : p = q
      · subst hpq; simp [List.lookup]
      · have hbeq : (p == q) = false := beq_false_of_ne hpq
        simp [List.lookup, hbeq, hpq, ih]

theorem mem_iff_lookup_of_nodup : ∀ {l : List (String × FileRecord)},
    (l.map Prod.fst).Nodup → ∀ (p : String) (v : FileRecord),
      ((p, v) ∈ l ↔ l.lookup p = some v) := by
  intro l
  induction l with
  | nil => intro _ p v; simp [List.lookup]
  | cons e t ih =>
      intro hn p v
      obtain ⟨q, w⟩ := e
      simp only [List.map_cons, List.nodup_cons] at hn
      obtain ⟨hq, ht⟩ := hn
      by_cases hpq : p = q
      · subst hpq
        simp only [List.lookup, beq_self_eq_true, if_pos, List.mem_cons]
        constructor
        · rintro (h | h)
          · rw [Prod.mk.injEq] at h
            rw [h.2]
          · exact absurd (List.mem_map_of_mem Prod.fst h) hq
        · intro h
          left
          rw [Option.some_inj] at h
          rw [h]
      · have hbeq : (p == q) = false := beq_false_of_ne hpq
        simp [List.lookup, hbeq, hpq, ih ht p v]

theorem count_filterMap_key (q : String × FileRecord → Bool) :
    ∀ (l : List (String × FileRecord)), (l.map Prod.fst).Nodup → ∀ (p : String),
      (l.filterMap fun e => if q e then some e.1 else none).count p =
        (match l.lookup p with
         | some v => if q (p, v) then 1 else 0
         | none => 0) := by
  intro l
  induction l with
  | nil => intro _ p; simp [List.lookup]
  | cons e t ih =>
      intro hn p
      obtain ⟨k, v⟩ := e
      simp only [List.map_cons, List.nodup_cons] at hn
      obtain ⟨hk, ht⟩ := hn
      by_cases hpk : p = k
      · subst hpk
        have hnone : t.lookup p = none := by
          cases hl : t.lookup p with
          | none => rfl
          | some w =>
              exfalso
              apply hk
              rw [← lookup_isSome_iff]
              rw [hl]
              rfl
        have hrest : (t.filterMap fun e => if q e then some e.1 else none).count p = 0 := by
          rw [ih ht p, hnone]
        by_cases hq : q (p, v) = true
        · simp [List.lookup, List.filterMap_cons, hq, List.count_cons, hrest]
        · simp [List.lookup, List.filterMap_cons, hq, hrest]
      · have hbeq : (p == k) = false := beq_false_of_ne hpk
        by_cases hq : q (k, v) = true
        · simp [List.lookup, hbeq, List.filterMap_cons, hq, List.count_cons,
            Ne.symm hpk, ih ht p]
        · simp [List.lookup, hbeq, List.filterMap_cons, hq, ih ht p]

theorem modEntry_path_eq (b : List (String × FileRecord)) (e : String × FileRecord) :
    (modEntry b e).map ModifiedEntry.path =
      (if modCond b e = true then some e.1 else none) := by
  unfold modEntry modCond
  cases hb : b.lookup e.1 with
  | some bb =>
      by_cases hh : e.2.hash = bb.hash
      · simp [hh]
      · simp [hh]
  | none => simp

theorem addEntry_path_eq (b : List (String × FileRecord)) (e : String × FileRecord) :
    (addEntry b e).map AddedEntry.path =
      (if addCond b e = true then some e.1 else none) := by
  unfold addEntry addCond
  cases hb : b.lookup e.1 with
  | some bb => simp
  | none => simp

theorem delEntry_path_eq (c : List (String × FileRecord)) (e : String × FileRecord) :
    (delEntry c e).map DeletedEntry.path =
      (if delCond c e = true then some e.1 else none) := by
  unfold delEntry delCond
  by_cases hn : (c.lookup e.1).isNone = true
  · simp [hn]
  · simp [hn]

theorem unchEntry_eq (b : List (String × FileRecord)) (e : String × FileRecord) :
    unchEntry b e = (if unchCond b e = true then some e.1 else none) := by
  unfold unchEntry unchCond
  cases hb : b.lookup e.1 with
  | some bb =>
      by_cases hh : e.2.hash = bb.hash
      · simp [hh]
      · simp [hh]
  | none => simp

/-- C2: for every path present in both the baseline files mapping and the
current scan mapping (unique keys, as Python dicts have), the classification
is decided by the hash fields alone: the path is classified modified exactly
when the two hashes differ and unchanged exactly when they are equal, so
differences in the size or modified-timestamp fields alone never cause a
modified classification. -/
theorem compare_hash_only (b c : List (String × FileRecord))
    (hb : (b.map Prod.fst).Nodup) (hc : (c.map Prod.fst).Nodup)
    (p : String) (cur old : FileRecord)
    (hcur : (p, cur) ∈ c) (hold : (p, old) ∈ b) :
    (p ∈ (compare_with_baseline b c).modifiedPaths ↔ cur.hash ≠ old.hash) ∧
    (p ∈ (compare_with_baseline b c).unchanged ↔ cur.hash = old.hash) := by
  have hlb : b.lookup p = some old := (mem_iff_lookup_of_nodup hb p old).mp hold
  have hlc : c.lookup p = some cur := (mem_iff_lookup_of_nodup hc p cur).mp hcur
  rw [compare_with_baseline_eq]
  constructor
  · show p ∈ List.map ModifiedEntry.path (c.filterMap (modEntry b)) ↔ _
    rw [List.map_filterMap, List.mem_filterMap]
    constructor
    · rintro ⟨e, he, hme⟩
      obtain ⟨q, r⟩ := e
      rw [modEntry_path_eq] at hme
      by_cases hq : modCond b (q, r) = true
      · rw [if_pos hq] at hme
        simp at hme
        subst hme
        have hr : r = cur := by
          have h2 := (mem_iff_lookup_of_nodup hc q r).mp he
          rw [hlc] at h2
          injection h2 with h2
          exact h2.symm
        subst hr
        unfold modCond at hq
        rw [hlb] at hq
        simp at hq
        exact hq
      · rw [if_neg hq] at hme
        simp at hme
    · intro hne
      refine ⟨(p, cur), hcur, ?_⟩
      rw [modEntry_path_eq]
      have hq : modCond b (p, cur) = true := by
        unfold modCond
        rw [hlb]
        simp [hne]
      rw [if_pos hq]
  · show p ∈ c.filterMap (unchEntry b) ↔ _
    rw [List.mem_filterMap]
    constructor
    · rintro ⟨e, he, hme⟩
      obtain ⟨q, r⟩ := e
      rw [unchEntry_eq] at hme
      by_cases hq : unchCond b (q, r) = true
      · rw [if_pos hq] at hme
        simp at hme
        subst hme
        have hr : r = cur := by
          have h2 := (mem_iff_lookup_of_nodup hc q r).mp he
          rw [hlc] at h2
          injection h2 with h2
          exact h2.symm
        subst hr
        unfold unchCond at hq
        rw [hlb] at hq
        simp at hq
        exact hq
      · rw [if_neg hq] at hme
        simp at hme
    · intro heq
      refine ⟨(p, cur), hcur, ?_⟩
      rw [unchEntry_eq]
      have hq : unchCond b (p, cur) = true := by
        unfold unchCond
        rw [hlb]
        simp [heq]
      rw [if_pos hq]

/-- C2, witness: two records for the same path with equal hashes but
different sizes and timestamps land in `unchanged`, not `modified`. -/
theorem compare_hash_only_witness :
    ("a.txt" ∈ (compare_with_baseline [("a.txt", ⟨"h1", 5, "t1", "sha256"⟩)]
        [("a.txt", ⟨"h1", 7, "t9", "sha256"⟩)]).modifiedPaths ↔
      ("h1" : String) ≠ "h1") ∧
    ("a.txt" ∈ (compare_with_baseline [("a.txt", ⟨"h1", 5, "t1", "sha256"⟩)]
        [("a.txt", ⟨"h1", 7, "t9", "sha256"⟩)]).unchanged ↔
      ("h1" : String) = "h1") :=
  compare_hash_only [("a.txt", ⟨"h1", 5, "t1", "sha256"⟩)]
    [("a.txt", ⟨"h1", 7, "t9", "sha256"⟩)] (by simp) (by simp) "a.txt"
    ⟨"h1", 7, "t9", "sha256"⟩ ⟨"h1", 5, "t1", "sha256"⟩ (by simp) (by simp)

/-- C1: for every baseline mapping and every current scan mapping (unique
keys, as Python dicts have), the four buckets of `compare_with_baseline`
together classify each path of the union of the two key sets exactly once,
and contain no other path. -/
theorem compare_partitions (b c : List (String × FileRecord))
    (hb : (b.map Prod.fst).Nodup) (hc : (c.map Prod.fst).Nodup) (p : String) :
    (compare_with_baseline b c).allPaths.count p =
      (if p ∈ keys c ∨ p ∈ keys b then 1 else 0) := by
  rw [compare_with_baseline_eq]
  show (List.map ModifiedEntry.path (c.filterMap (modEntry b)) ++
        List.map AddedEntry.path (c.filterMap (addEntry b)) ++
        List.map DeletedEntry.path (b.filterMap (delEntry c)) ++
        c.filterMap (unchEntry b)).count p = _
  have h1 : List.map ModifiedEntry.path (c.filterMap (modEntry b)) =
      c.filterMap fun e => if modCond b e then some e.1 else none := by
    rw [List.map_filterMap]
    exact List.filterMap_congr fun e _ => modEntry_path_eq b e
  have h2 : List.map AddedEntry.path (c.filterMap (addEntry b)) =
      c.filterMap fun e => if addCond b e then some e.1 else none := by
    rw [List.map_filterMap]
    exact List.filterMap_congr fun e _ => addEntry_path_eq b e
  have h3 : List.map DeletedEntry.path (b.filterMap (delEntry c)) =
      b.filterMap fun e => if delCond c e then some e.1 else none := by
    rw [List.map_filterMap]
    exact List.filterMap_congr fun e _ => delEntry_path_eq c e
  have h4 : c.filterMap (unchEntry b) =
      c.filterMap fun e => if unchCond b e then some e.1 else none :=
    List.filterMap_congr fun e _ => unchEntry_eq b e
  rw [h1, h2, h3, h4, List.count_append, List.count_append, List.count_append,
    count_filterMap_key (modCond b) c hc p, count_filterMap_key (addCond b) c hc p,
    count_filterMap_key (delCond c) b hb p, count_filterMap_key (unchCond b) c hc p]
  cases hlc : c.lookup p with
  | some v =>
      have hmemc : p ∈ keys c := by
        rw [keys, ← lookup_isSome_iff, hlc]
        rfl
      cases hlb : b.lookup p with
      | some w =>
          have hcnone : (c.lookup p).isNone = false := by rw [hlc]; rfl
          by_cases hh : v.hash = w.hash
          · simp [modCond, addCond, delCond, unchCond, hlc, hlb, hh, hcnone, hmemc]
          · simp [modCond, addCond, delCond, unchCond, hlc, hlb, hh, hcnone, hmemc]
      | none =>
          simp [modCond, addCond, delCond, unchCond, hlc, hlb, hmemc]
  | none =>
      have hmemc : p ∉ keys c := by
        rw [keys, ← lookup_isSome_iff, hlc]
        simp
      cases hlb : b.lookup p with
      | some w =>
          have hmemb : p ∈ keys b := by
            rw [keys, ← lookup_isSome_iff, hlb]
            rfl
          simp [modCond, addCond, delCond, unchCond, hlc, hlb, hmemc, hmemb]
      | none =>
          have hmemb : p ∉ keys b := by
            rw [keys, ← lookup_isSome_iff, hlb]
            simp
          simp [modCond, addCond, delCond, unchCond, hlc, hlb, hmemc, hmemb]

/-- C1, witness: one overlapping path is classified exactly once. -/
theorem compare_partitions_witness :
    (compare_with_baseline [("a.txt", ⟨"h1", 1, "t1", "sha256"⟩)]
        [("a.txt", ⟨"h2", 1, "t2", "sha256"⟩)]).allPaths.count "a.txt" =
      (if "a.txt" ∈ keys [("a.txt", ⟨"h2", 1, "t2", "sha256"⟩)] ∨
          "a.txt" ∈ keys [("a.txt", ⟨"h1", 1, "t1", "sha256"⟩)] then 1 else 0) :=
  compare_partitions [("a.txt", ⟨"h1", 1, "t1", "sha256"⟩)]
    [("a.txt", ⟨"h2", 1, "t2", "sha256"⟩)] (by simp) (by simp) "a.txt"

end FIM
